import Mathlib

/-!
Verification of the Bangalore Traffic Sentinel backend
(`src/backend/server.py`) against its natural-language specification.

The numeric layer of the Python code (floats) is embedded over `ℚ` with
exact arithmetic; the Python `round(x, 2)` is modelled as round-half-to-even
at two decimal places over the exact rational value.  The process-wide
random draw `random.random()` (uniform in `[0, 1)`) is modelled as an
explicit input: a single rational `u` for one call of the predictor, and a
stream `us : ℕ → ℚ` (one draw per loop iteration) for the range handler.
The MongoDB audit collection is modelled as an explicit list of documents
threaded through the handler; `insert_one` appends.  The Python
`str.lower()` / `str.replace(" ", "_")` are modelled character-wise, which
is exact for lowercasing and for replacement of a one-character pattern.
-/

namespace TrafficSentinel

/-- Python `round` helper: round a rational to the nearest integer,
ties going to the even integer (Python banker rounding). -/
def roundHalfEven (x : ℚ) : ℤ :=
  if x - ⌊x⌋ < 1/2 then ⌊x⌋
  else if 1/2 < x - ⌊x⌋ then ⌊x⌋ + 1
  else if ⌊x⌋ % 2 = 0 then ⌊x⌋ else ⌊x⌋ + 1

/-- Python `round(x, 2)`: round to two decimal places (half to even),
modelled over the exact rational value. -/
def round2 (x : ℚ) : ℚ := (roundHalfEven (x * 100) : ℚ) / 100

/-- Per-location static data of `TRAFFIC_LOCATIONS` (display name and
coordinates). -/
structure LocationData where
  name : String
  latitude : ℚ
  longitude : ℚ
deriving Repr, DecidableEq

/-- `TRAFFIC_LOCATIONS`: the fixed table of supported locations, in the
order of insertion in the source. -/
def TRAFFIC_LOCATIONS : List (String × LocationData) :=
  [("silk_board", ⟨"Silk Board", 12.9177, 77.6233⟩),
   ("kr_puram", ⟨"KR Puram", 13.0075, 77.6959⟩),
   ("whitefield", ⟨"Whitefield", 12.9698, 77.7500⟩),
   ("hebbal", ⟨"Hebbal", 13.0358, 77.5970⟩)]

/-- `DAYS_OF_WEEK`: the fixed Monday-first list of weekday names. -/
def DAYS_OF_WEEK : List String :=
  ["Monday", "Tuesday", "Wednesday", "Thursday", "Friday", "Saturday", "Sunday"]

/-- The `base_traffic` dictionary lookup `base_traffic.get(place, 1500)`
inside `predict_traffic_value`. -/
def base_traffic (place : String) : ℚ :=
  if place = "silk_board" then 2500
  else if place = "kr_puram" then 2200
  else if place = "whitefield" then 1800
  else if place = "hebbal" then 2000
  else 1500

/-- `weekend_factor`: `0.6 if day in ["Saturday", "Sunday"] else 1.0`. -/
def weekend_factor (day : String) : ℚ :=
  if day = "Saturday" ∨ day = "Sunday" then 0.6 else 1.0

/-- `hour_multiplier`: the rush-hour band if/elif chain of
`predict_traffic_value` (initial value 1.0, overwritten by the matching
band). -/
def hour_multiplier (hour : ℤ) : ℚ :=
  if 8 ≤ hour ∧ hour ≤ 10 then 1.8
  else if 17 ≤ hour ∧ hour ≤ 20 then 2.0
  else if 12 ≤ hour ∧ hour ≤ 14 then 1.3
  else if 0 ≤ hour ∧ hour ≤ 5 then 0.3
  else if 22 ≤ hour ∧ hour ≤ 23 then 0.5
  else 1.0

/-- `day_factor`: `1.15` on Friday, `1.1` on Monday, else `1.0`. -/
def day_factor (day : String) : ℚ :=
  if day = "Friday" then 1.15
  else if day = "Monday" then 1.1
  else 1.0

/-- The pre-jitter product
`base * weekend_factor * hour_multiplier * day_factor` computed by
`predict_traffic_value` (the line `traffic = base * weekend_factor *
hour_multiplier * day_factor`). -/
def rawValue (place day : String) (hour : ℤ) : ℚ :=
  base_traffic place * weekend_factor day * hour_multiplier hour * day_factor day

/-- `predict_traffic_value(place, day, hour)` with the draw of
`random.random()` made explicit as the argument `u`:
`traffic = raw * (0.9 + u * 0.2)`, then `round(traffic, 2)`. -/
def predict_traffic_value (place day : String) (hour : ℤ) (u : ℚ) : ℚ :=
  round2 (rawValue place day hour * (0.9 + u * 0.2))

/-- The dict returned by `get_traffic_level`. -/
structure TrafficLevelInfo where
  level : String
  color : String
  severity : ℕ
deriving Repr, DecidableEq

/-- `get_traffic_level(traffic_value)`: threshold classifier. -/
def get_traffic_level (traffic_value : ℚ) : TrafficLevelInfo :=
  if traffic_value < 1500 then ⟨"Normal", "#10B981", 1⟩
  else if traffic_value < 2500 then ⟨"Moderate", "#F59E0B", 2⟩
  else ⟨"High", "#EF4444", 3⟩

/-- The pydantic request model `TrafficPredictionRequest` (field values as
they reach the handler body). -/
structure TrafficPredictionRequest where
  place : String
  day : String
  start_hour : ℤ
  end_hour : ℤ
deriving Repr, DecidableEq

/-- The `HourlyPrediction` response model. -/
structure HourlyPrediction where
  hour : ℤ
  traffic_value : ℚ
  traffic_level : String
  color : String
  severity : ℕ
deriving Repr, DecidableEq

/-- The `TrafficPredictionResponse` response model. -/
structure TrafficPredictionResponse where
  place : String
  place_name : String
  latitude : ℚ
  longitude : ℚ
  day : String
  predictions : List HourlyPrediction
  peak_hour : ℤ
  peak_traffic : ℚ
  average_traffic : ℚ
  insight : String
deriving Repr, DecidableEq

/-- The `prediction_doc` dict inserted into `db.traffic_predictions`. -/
structure AuditDoc where
  id : String
  place : String
  day : String
  start_hour : ℤ
  end_hour : ℤ
  peak_hour : ℤ
  peak_traffic : ℚ
  timestamp : String
deriving Repr, DecidableEq

/-- Pydantic field constraints `start_hour: int = Field(ge=0, le=23)` and
`end_hour: int = Field(ge=0, le=23)`: deserialization succeeds exactly when
both hours lie in `[0, 23]`. -/
def parseRequest (place day : String) (start_hour end_hour : ℤ) :
    Option TrafficPredictionRequest :=
  if 0 ≤ start_hour ∧ start_hour ≤ 23 ∧ 0 ≤ end_hour ∧ end_hour ≤ 23 then
    some ⟨place, day, start_hour, end_hour⟩
  else none

/-- `request.place.lower().replace(" ", "_")`, modelled character-wise
(exact for ASCII lowercasing and a one-character pattern). -/
def normalize_place (place : String) : String :=
  ⟨(place.data.map Char.toLower).map fun c => if c = ' ' then '_' else c⟩

/-- A single-quote character as a string (used to render Python `repr`
of string lists appearing in the f-string error details). -/
def squote : String := ⟨[Char.ofNat 39]⟩

/-- Python `repr` of a list of plain identifier strings, as interpolated
by the f-strings in the two validation error messages. -/
def pyListRepr (l : List String) : String :=
  "[" ++ String.intercalate ", " (l.map fun s => squote ++ s ++ squote) ++ "]"

/-- The `detail` string of the invalid-location `HTTPException`. -/
def invalidLocationDetail : String :=
  "Invalid location. Supported locations: " ++ pyListRepr (TRAFFIC_LOCATIONS.map Prod.fst)

/-- The `detail` string of the invalid-day `HTTPException`. -/
def invalidDayDetail : String :=
  "Invalid day. Supported days: " ++ pyListRepr DAYS_OF_WEEK

/-- The `detail` string of the invalid-range `HTTPException`. -/
def invalidRangeDetail : String :=
  "End hour must be greater than or equal to start hour"

/-- The prediction loop
`for hour in range(request.start_hour, request.end_hour + 1)`, with the
`i`-th iteration consuming the `i`-th random draw `us i`. -/
def mkPredictions (place day : String) (s e : ℤ) (us : ℕ → ℚ) :
    List HourlyPrediction :=
  (List.range (e + 1 - s).toNat).map fun (i : ℕ) =>
    let hour := s + (i : ℤ)
    let tv := predict_traffic_value place day hour (us i)
    let li := get_traffic_level tv
    ⟨hour, tv, li.level, li.color, li.severity⟩

/-- Python `max(predictions, key=lambda x: x.traffic_value)` starting from
a current best: a later element replaces the best only when its key is
strictly greater, so the first occurrence wins on ties. -/
def pyMaxAux (best : HourlyPrediction) : List HourlyPrediction → HourlyPrediction
  | [] => best
  | x :: xs => pyMaxAux (if best.traffic_value < x.traffic_value then x else best) xs

/-- The insight if/elif/else chain keyed on `peak_prediction.severity`. -/
def buildInsight (peak : HourlyPrediction) : String :=
  if peak.severity = 3 then
    "Peak congestion expected at " ++ toString peak.hour ++
      ":00. Consider alternative routes or delay travel by 1-2 hours."
  else if peak.severity = 2 then
    "Moderate traffic expected. " ++ toString peak.hour ++
      ":00 shows highest activity. Plan buffer time."
  else
    "Traffic conditions are favorable. Smooth commute expected throughout the selected time range."

/-- The `POST /predict-traffic` handler body `predict_traffic_range`.
Random draws, the generated uuid and timestamp are explicit inputs; the
audit collection `db.traffic_predictions` is threaded as a list, with
`insert_one` appending.  The Python `max` on an empty sequence would raise
`ValueError`; that branch is unreachable once validation has passed and is
modelled as an error result. -/
def predict_traffic_range (req : TrafficPredictionRequest) (us : ℕ → ℚ)
    (uuid timestamp : String) (store : List AuditDoc) :
    Except String TrafficPredictionResponse × List AuditDoc :=
  let place := normalize_place req.place
  match TRAFFIC_LOCATIONS.lookup place with
  | none => (.error invalidLocationDetail, store)
  | some location =>
    if DAYS_OF_WEEK.contains req.day = false then
      (.error invalidDayDetail, store)
    else if req.end_hour < req.start_hour then
      (.error invalidRangeDetail, store)
    else
      match mkPredictions place req.day req.start_hour req.end_hour us with
      | [] => (.error "ValueError: max arg is an empty sequence", store)
      | p :: ps =>
        let predictions := p :: ps
        let peak_prediction := pyMaxAux p ps
        let average_traffic :=
          (predictions.map (fun q => q.traffic_value)).sum / (predictions.length : ℚ)
        let doc : AuditDoc :=
          ⟨uuid, place, req.day, req.start_hour, req.end_hour,
            peak_prediction.hour, peak_prediction.traffic_value, timestamp⟩
        (.ok ⟨place, location.name, location.latitude, location.longitude,
              req.day, predictions, peak_prediction.hour,
              peak_prediction.traffic_value, round2 average_traffic,
              buildInsight peak_prediction⟩,
         store ++ [doc])

/-- A JSON-like value, used to state the shape of the `GET /days`
response payload. -/
inductive ApiValue where
  | str (s : String)
  | arr (items : List ApiValue)
  | obj (fields : List (String × ApiValue))

/-- The `GET /days` handler: `return {"days": DAYS_OF_WEEK}`. -/
def get_days : ApiValue := .obj [("days", .arr (DAYS_OF_WEEK.map .str))]

/-! ## Spec-side definitions for the refinement claim C1 -/

/-- Modelled from the wording of claim C1: the fixed base table
`{silk_board: 2500, kr_puram: 2200, whitefield: 1800, hebbal: 2000}`. -/
def specBaseTable : List (String × ℚ) :=
  [("silk_board", 2500), ("kr_puram", 2200), ("whitefield", 1800), ("hebbal", 2000)]

/-- Modelled from the wording of claim C1: base from the fixed table, any
other place collapsing to the fixed default base (1500). -/
def specBase (place : String) : ℚ := (specBaseTable.lookup place).getD 1500

/-- Modelled from the wording of claim C1: weekend multiplier 0.6 for
Saturday/Sunday else 1.0. -/
def specWeekendMult (day : String) : ℚ :=
  if day = "Saturday" ∨ day = "Sunday" then 0.6 else 1.0

/-- Modelled from the wording of claim C1: hour multiplier 1.8 for hours 8-10,
2.0 for 17-20, 1.3 for 12-14, 0.3 for 0-5, 0.5 for 22-23, and 1.0 for all
other hours (6,7,11,15,16,21). -/
def specHourMult (hour : ℤ) : ℚ :=
  if 8 ≤ hour ∧ hour ≤ 10 then 1.8
  else if 17 ≤ hour ∧ hour ≤ 20 then 2.0
  else if 12 ≤ hour ∧ hour ≤ 14 then 1.3
  else if 0 ≤ hour ∧ hour ≤ 5 then 0.3
  else if 22 ≤ hour ∧ hour ≤ 23 then 0.5
  else 1.0

/-- Modelled from the wording of claim C1: day multiplier 1.15 for Friday,
1.10 for Monday, else 1.0. -/
def specDayMult (day : String) : ℚ :=
  if day = "Friday" then 1.15
  else if day = "Monday" then 1.10
  else 1.0

/-- Modelled from the wording of claim C1: the generator returns
`round(raw * (0.9 + 0.2*u), 2)` with `raw` the product of base and the
three multipliers. -/
def specPredict (place day : String) (hour : ℤ) (u : ℚ) : ℚ :=
  round2 (specBase place * specWeekendMult day * specHourMult hour * specDayMult day
    * (0.9 + 0.2 * u))

/-- The response value built by the success path of
`predict_traffic_range`, for predictions list `p :: ps`. -/
def successResponse (place day : String) (loc : LocationData)
    (p : HourlyPrediction) (ps : List HourlyPrediction) : TrafficPredictionResponse :=
  ⟨place, loc.name, loc.latitude, loc.longitude, day, p :: ps,
   (pyMaxAux p ps).hour, (pyMaxAux p ps).traffic_value,
   round2 ((((p :: ps).map fun q => q.traffic_value).sum) / (((p :: ps).length : ℚ))),
   buildInsight (pyMaxAux p ps)⟩

/-- The audit document inserted by the success path of
`predict_traffic_range`. -/
def successAudit (uuid place day : String) (s e : ℤ)
    (p : HourlyPrediction) (ps : List HourlyPrediction) (ts : String) : AuditDoc :=
  ⟨uuid, place, day, s, e, (pyMaxAux p ps).hour, (pyMaxAux p ps).traffic_value, ts⟩

/-! ## Helper lemmas -/

lemma mkPredictions_length (pl d : String) (s e : ℤ) (us : ℕ → ℚ) :
    (mkPredictions pl d s e us).length = (e + 1 - s).toNat := by
  unfold mkPredictions
  rw [List.length_map, List.length_range]

lemma mkPredictions_ne_nil (pl d : String) (s e : ℤ) (us : ℕ → ℚ)
    (h : ¬ e < s) : mkPredictions pl d s e us ≠ [] := by
  intro hnil
  have hlen := congrArg List.length hnil
  rw [mkPredictions_length] at hlen
  simp only [List.length_nil] at hlen
  omega

lemma mkPredictions_hour (pl d : String) (s e : ℤ) (us : ℕ → ℚ) (i : ℕ)
    (q : HourlyPrediction) (h : (mkPredictions pl d s e us)[i]? = some q) :
    q.hour = s + i ∧ (i : ℤ) < e + 1 - s := by
  unfold mkPredictions at h
  rw [List.getElem?_map] at h
  by_cases hi : i < (e + 1 - s).toNat
  · rw [List.getElem?_range hi] at h
    rw [Option.map_some'] at h
    have h2 := Option.some.inj h
    constructor
    · rw [← h2]
    · omega
  · rw [List.getElem?_eq_none] at h
    · simp at h
    · rw [List.length_range]
      omega

lemma handler_ok_eq (req : TrafficPredictionRequest) (us : ℕ → ℚ)
    (uuid ts : String) (store : List AuditDoc) (loc : LocationData)
    (p : HourlyPrediction) (ps : List HourlyPrediction)
    (hl : TRAFFIC_LOCATIONS.lookup (normalize_place req.place) = some loc)
    (hd : DAYS_OF_WEEK.contains req.day = true)
    (hr : ¬ req.end_hour < req.start_hour)
    (hm : mkPredictions (normalize_place req.place) req.day req.start_hour
            req.end_hour us = p :: ps) :
    predict_traffic_range req us uuid ts store =
      (.ok (successResponse (normalize_place req.place) req.day loc p ps),
       store ++ [successAudit uuid (normalize_place req.place) req.day
                  req.start_hour req.end_hour p ps ts]) := by
  simp only [predict_traffic_range]
  split
  · rename_i heq
    rw [hl] at heq
    exact absurd heq (by simp)
  · rename_i loc2 heq
    rw [hl] at heq
    obtain rfl : loc2 = loc := (Option.some.inj heq).symm
    rw [hd, if_neg (by simp), if_neg hr, hm]
    rfl

lemma handler_err_loc (req : TrafficPredictionRequest) (us : ℕ → ℚ)
    (uuid ts : String) (store : List AuditDoc)
    (hl : TRAFFIC_LOCATIONS.lookup (normalize_place req.place) = none) :
    predict_traffic_range req us uuid ts store = (.error invalidLocationDetail, store) := by
  simp only [predict_traffic_range]
  split
  · rfl
  · rename_i loc2 heq
    rw [hl] at heq
    exact absurd heq (by simp)

lemma handler_err_day (req : TrafficPredictionRequest) (us : ℕ → ℚ)
    (uuid ts : String) (store : List AuditDoc) (loc : LocationData)
    (hl : TRAFFIC_LOCATIONS.lookup (normalize_place req.place) = some loc)
    (hd : DAYS_OF_WEEK.contains req.day = false) :
    predict_traffic_range req us uuid ts store = (.error invalidDayDetail, store) := by
  simp only [predict_traffic_range]
  split
  · rename_i heq
    rw [hl] at heq
    exact absurd heq (by simp)
  · rename_i loc2 heq
    rw [hd, if_pos rfl]

lemma handler_err_range (req : TrafficPredictionRequest) (us : ℕ → ℚ)
    (uuid ts : String) (store : List AuditDoc) (loc : LocationData)
    (hl : TRAFFIC_LOCATIONS.lookup (normalize_place req.place) = some loc)
    (hd : DAYS_OF_WEEK.contains req.day = true)
    (hr : req.end_hour < req.start_hour) :
    predict_traffic_range req us uuid ts store = (.error invalidRangeDetail, store) := by
  simp only [predict_traffic_range]
  split
  · rename_i heq
    rw [hl] at heq
    exact absurd heq (by simp)
  · rename_i loc2 heq
    rw [hd, if_neg (by simp), if_pos hr]

/-- Inversion: a successful handler run passed all three validations and
returned the success-path response for a nonempty predictions list. -/
lemma handler_ok_cases (req : TrafficPredictionRequest) (us : ℕ → ℚ)
    (uuid ts : String) (store : List AuditDoc) (resp : TrafficPredictionResponse)
    (h : (predict_traffic_range req us uuid ts store).1 = .ok resp) :
    ∃ loc p ps,
      TRAFFIC_LOCATIONS.lookup (normalize_place req.place) = some loc ∧
      DAYS_OF_WEEK.contains req.day = true ∧
      ¬ req.end_hour < req.start_hour ∧
      mkPredictions (normalize_place req.place) req.day req.start_hour
        req.end_hour us = p :: ps ∧
      resp = successResponse (normalize_place req.place) req.day loc p ps ∧
      (predict_traffic_range req us uuid ts store).2 =
        store ++ [successAudit uuid (normalize_place req.place) req.day
                   req.start_hour req.end_hour p ps ts] := by
  cases hl : TRAFFIC_LOCATIONS.lookup (normalize_place req.place) with
  | none =>
    rw [handler_err_loc req us uuid ts store hl] at h
    exact absurd h (by simp)
  | some loc =>
    cases hd : DAYS_OF_WEEK.contains req.day with
    | false =>
      rw [handler_err_day req us uuid ts store loc hl hd] at h
      exact absurd h (by simp)
    | true =>
      by_cases hr : req.end_hour < req.start_hour
      · rw [handler_err_range req us uuid ts store loc hl hd hr] at h
        exact absurd h (by simp)
      · obtain ⟨p, ps, hm⟩ := List.exists_cons_of_ne_nil
          (mkPredictions_ne_nil (normalize_place req.place) req.day
            req.start_hour req.end_hour us hr)
        have heq := handler_ok_eq req us uuid ts store loc p ps hl hd hr hm
        rw [heq] at h
        simp only [Except.ok.injEq] at h
        exact ⟨loc, p, ps, rfl, rfl, hr, hm, h.symm, by rw [heq]⟩

lemma roundHalfEven_ge {k : ℤ} {x : ℚ} (h : (k : ℚ) ≤ x) : k ≤ roundHalfEven x := by
  unfold roundHalfEven
  have hk : k ≤ ⌊x⌋ := Int.le_floor.mpr h
  split_ifs <;> omega

lemma roundHalfEven_le {k : ℤ} {x : ℚ} (h : x ≤ (k : ℚ)) : roundHalfEven x ≤ k := by
  unfold roundHalfEven
  have h1 : ⌊x⌋ ≤ k := by
    have := Int.floor_le_floor (α := ℚ) h
    simpa using this
  have h2 : ¬ (x - ⌊x⌋ < 1/2) → ⌊x⌋ + 1 ≤ k := by
    intro hA
    push_neg at hA
    have hx : (⌊x⌋ : ℚ) < x := by linarith
    have hxk : (⌊x⌋ : ℚ) < (k : ℚ) := lt_of_lt_of_le hx h
    have : ⌊x⌋ < k := by exact_mod_cast hxk
    omega
  split_ifs with hA hB hC
  · exact h1
  · exact h2 hA
  · exact h1
  · exact h2 hA

lemma round2_ge {k : ℤ} {x : ℚ} (h : (k : ℚ) ≤ x * 100) : (k : ℚ) / 100 ≤ round2 x := by
  unfold round2
  have h1 : k ≤ roundHalfEven (x * 100) := roundHalfEven_ge h
  have h2 : (k : ℚ) ≤ (roundHalfEven (x * 100) : ℚ) := by exact_mod_cast h1
  linarith

lemma round2_le {k : ℤ} {x : ℚ} (h : x * 100 ≤ (k : ℚ)) : round2 x ≤ (k : ℚ) / 100 := by
  unfold round2
  have h1 : roundHalfEven (x * 100) ≤ k := roundHalfEven_le h
  have h2 : (roundHalfEven (x * 100) : ℚ) ≤ (k : ℚ) := by exact_mod_cast h1
  linarith

lemma base_traffic_pos (place : String) : 0 < base_traffic place := by
  unfold base_traffic
  split_ifs <;> norm_num

lemma hour_multiplier_pos (hour : ℤ) : 0 < hour_multiplier hour := by
  unfold hour_multiplier
  split_ifs <;> norm_num

lemma day_factor_ge_one (day : String) : 1 ≤ day_factor day := by
  unfold day_factor
  split_ifs <;> norm_num

lemma weekend_factor_pos (day : String) : 0 < weekend_factor day := by
  unfold weekend_factor
  split_ifs <;> norm_num

lemma rawValue_pos (place day : String) (hour : ℤ) : 0 < rawValue place day hour := by
  unfold rawValue
  have h1 := base_traffic_pos place
  have h2 := weekend_factor_pos day
  have h3 := hour_multiplier_pos hour
  have h4 := day_factor_ge_one day
  positivity

/-- Ten times any pre-jitter product is an integer: both envelope bounds
`0.9 * raw` and `1.1 * raw` are therefore exact multiples of `1/100`. -/
lemma rawValue_ten_int (place day : String) (hour : ℤ) :
    ((⌊rawValue place day hour * 10⌋ : ℤ) : ℚ) = rawValue place day hour * 10 := by
  unfold rawValue base_traffic weekend_factor hour_multiplier day_factor
  split_ifs <;> norm_num

lemma specBase_eq (place : String) : specBase place = base_traffic place := by
  unfold specBase specBaseTable base_traffic
  by_cases h1 : place = "silk_board" <;> by_cases h2 : place = "kr_puram" <;>
    by_cases h3 : place = "whitefield" <;> by_cases h4 : place = "hebbal" <;>
    simp_all [List.lookup, beq_eq_false_iff_ne, beq_iff_eq]
  have b1 : (place == "silk_board") = false := beq_eq_false_iff_ne.mpr h1
  have b2 : (place == "kr_puram") = false := beq_eq_false_iff_ne.mpr h2
  have b3 : (place == "whitefield") = false := beq_eq_false_iff_ne.mpr h3
  have b4 : (place == "hebbal") = false := beq_eq_false_iff_ne.mpr h4
  rw [b1, b2, b3, b4]
  rfl

/-- Python `max` semantics: `pyMaxAux b l` is an element of `b :: l`, it
is maximal for `traffic_value`, and every element strictly before it is
strictly smaller (first occurrence wins on ties). -/
lemma pyMaxAux_spec (l : List HourlyPrediction) : ∀ b : HourlyPrediction,
    ∃ i : ℕ, (b :: l)[i]? = some (pyMaxAux b l) ∧
      (∀ (j : ℕ) (q : HourlyPrediction), (b :: l)[j]? = some q →
        q.traffic_value ≤ (pyMaxAux b l).traffic_value) ∧
      (∀ (j : ℕ) (q : HourlyPrediction), j < i → (b :: l)[j]? = some q →
        q.traffic_value < (pyMaxAux b l).traffic_value) := by
  induction l with
  | nil =>
    intro b
    refine ⟨0, rfl, ?_, ?_⟩
    · intro j q hj
      cases j with
      | zero =>
        rw [List.getElem?_cons_zero] at hj
        cases Option.some.inj hj
        exact le_refl _
      | succ n =>
        rw [List.getElem?_cons_succ] at hj
        simp at hj
    · intro j q hji hj
      omega
  | cons x xs ih =>
    intro b
    by_cases hbx : b.traffic_value < x.traffic_value
    · obtain ⟨i, hget, hmax, hpre⟩ := ih x
      have hred : pyMaxAux b (x :: xs) = pyMaxAux x xs := by
        simp only [pyMaxAux]
        rw [if_pos hbx]
      rw [hred]
      have hxle : x.traffic_value ≤ (pyMaxAux x xs).traffic_value :=
        hmax 0 x (by rw [List.getElem?_cons_zero])
      refine ⟨i + 1, ?_, ?_, ?_⟩
      · rw [List.getElem?_cons_succ]
        exact hget
      · intro j q hj
        cases j with
        | zero =>
          rw [List.getElem?_cons_zero] at hj
          cases Option.some.inj hj
          exact le_of_lt (lt_of_lt_of_le hbx hxle)
        | succ n =>
          rw [List.getElem?_cons_succ] at hj
          exact hmax n q hj
      · intro j q hji hj
        cases j with
        | zero =>
          rw [List.getElem?_cons_zero] at hj
          cases Option.some.inj hj
          exact lt_of_lt_of_le hbx hxle
        | succ n =>
          rw [List.getElem?_cons_succ] at hj
          exact hpre n q (by omega) hj
    · obtain ⟨i, hget, hmax, hpre⟩ := ih b
      have hred : pyMaxAux b (x :: xs) = pyMaxAux b xs := by
        simp only [pyMaxAux]
        rw [if_neg hbx]
      rw [hred]
      push_neg at hbx
      have hble : b.traffic_value ≤ (pyMaxAux b xs).traffic_value :=
        hmax 0 b (by rw [List.getElem?_cons_zero])
      cases i with
      | zero =>
        refine ⟨0, ?_, ?_, ?_⟩
        · rw [List.getElem?_cons_zero]
          rw [List.getElem?_cons_zero] at hget
          exact hget
        · intro j q hj
          cases j with
          | zero =>
            rw [List.getElem?_cons_zero] at hj
            cases Option.some.inj hj
            exact hble
          | succ n =>
            cases n with
            | zero =>
              rw [List.getElem?_cons_succ, List.getElem?_cons_zero] at hj
              cases Option.some.inj hj
              exact le_trans hbx hble
            | succ m =>
              rw [List.getElem?_cons_succ, List.getElem?_cons_succ] at hj
              exact hmax (m + 1) q (by rw [List.getElem?_cons_succ]; exact hj)
        · intro j q hji hj
          omega
      | succ n =>
        have hblt : b.traffic_value < (pyMaxAux b xs).traffic_value :=
          hpre 0 b (by omega) (by rw [List.getElem?_cons_zero])
        refine ⟨n + 2, ?_, ?_, ?_⟩
        · rw [List.getElem?_cons_succ, List.getElem?_cons_succ]
          rw [List.getElem?_cons_succ] at hget
          exact hget
        · intro j q hj
          cases j with
          | zero =>
            rw [List.getElem?_cons_zero] at hj
            cases Option.some.inj hj
            exact hble
          | succ m =>
            cases m with
            | zero =>
              rw [List.getElem?_cons_succ, List.getElem?_cons_zero] at hj
              cases Option.some.inj hj
              exact le_trans hbx hble
            | succ r =>
              rw [List.getElem?_cons_succ, List.getElem?_cons_succ] at hj
              exact hmax (r + 1) q (by rw [List.getElem?_cons_succ]; exact hj)
        · intro j q hji hj
          cases j with
          | zero =>
            rw [List.getElem?_cons_zero] at hj
            cases Option.some.inj hj
            exact hblt
          | succ m =>
            cases m with
            | zero =>
              rw [List.getElem?_cons_succ, List.getElem?_cons_zero] at hj
              cases Option.some.inj hj
              exact lt_of_le_of_lt hbx hblt
            | succ r =>
              rw [List.getElem?_cons_succ, List.getElem?_cons_succ] at hj
              exact hpre (r + 1) q (by omega) (by rw [List.getElem?_cons_succ]; exact hj)

/-! ## Claim theorems -/

/-- C1: for every place string, day string, hour integer and explicit
jitter draw `u`, the Signal Generator returns
`round(raw * (0.9 + 0.2*u), 2)` where `raw` is the product of the fixed
base table value (default base for unknown places), the weekend
multiplier (0.6 on Saturday/Sunday else 1.0), the hour-band multiplier
(1.8 for 8-10, 2.0 for 17-20, 1.3 for 12-14, 0.3 for 0-5, 0.5 for 22-23,
1.0 otherwise), and the day multiplier (1.15 Friday, 1.10 Monday, else
1.0). -/
theorem generator_matches_spec_formula (place day : String) (hour : ℤ) (u : ℚ) :
    predict_traffic_value place day hour u = specPredict place day hour u := by
  unfold predict_traffic_value specPredict rawValue
  congr 1
  have hb := specBase_eq place
  have hw : specWeekendMult day = weekend_factor day := rfl
  have hh : specHourMult hour = hour_multiplier hour := rfl
  have hd : specDayMult day = day_factor day := by
    unfold specDayMult day_factor
    split_ifs <;> norm_num
  rw [hb, hw, hh, hd]
  ring

/-- C1 witness: the generator and the claim formula agree at a concrete
input (silk_board, Friday, hour 18, draw 1/4). -/
theorem generator_matches_spec_formula_witness :
    predict_traffic_value "silk_board" "Friday" 18 (1/4)
      = specPredict "silk_board" "Friday" 18 (1/4) :=
  generator_matches_spec_formula "silk_board" "Friday" 18 (1/4)

/-- C2: the classifier is total and deterministic with exact boundaries:
values below 1500 are Normal (rank 1), values in [1500, 2500) are
Moderate (rank 2), values at or above 2500 are High (rank 3); in
particular 1499.99 is Normal, 1500.00 Moderate, 2499.99 Moderate and
2500.00 High, and every input classifies into one of the three tiers. -/
theorem classifier_thresholds :
    (∀ v : ℚ,
      (v < 1500 → get_traffic_level v = ⟨"Normal", "#10B981", 1⟩) ∧
      ((1500 ≤ v ∧ v < 2500) → get_traffic_level v = ⟨"Moderate", "#F59E0B", 2⟩) ∧
      (2500 ≤ v → get_traffic_level v = ⟨"High", "#EF4444", 3⟩) ∧
      ((get_traffic_level v).severity = 1 ∨ (get_traffic_level v).severity = 2 ∨
        (get_traffic_level v).severity = 3)) ∧
    get_traffic_level 1499.99 = ⟨"Normal", "#10B981", 1⟩ ∧
    get_traffic_level 1500.00 = ⟨"Moderate", "#F59E0B", 2⟩ ∧
    get_traffic_level 2499.99 = ⟨"Moderate", "#F59E0B", 2⟩ ∧
    get_traffic_level 2500.00 = ⟨"High", "#EF4444", 3⟩ := by
  have key : ∀ v : ℚ,
      (v < 1500 → get_traffic_level v = ⟨"Normal", "#10B981", 1⟩) ∧
      ((1500 ≤ v ∧ v < 2500) → get_traffic_level v = ⟨"Moderate", "#F59E0B", 2⟩) ∧
      (2500 ≤ v → get_traffic_level v = ⟨"High", "#EF4444", 3⟩) ∧
      ((get_traffic_level v).severity = 1 ∨ (get_traffic_level v).severity = 2 ∨
        (get_traffic_level v).severity = 3) := by
    intro v
    unfold get_traffic_level
    refine ⟨fun h => ?_, fun h => ?_, fun h => ?_, ?_⟩
    · rw [if_pos h]
    · rw [if_neg (not_lt.mpr h.1), if_pos h.2]
    · rw [if_neg (by linarith), if_neg (by linarith)]
    · split_ifs <;> simp
  refine ⟨key, ?_, ?_, ?_, ?_⟩
  · exact (key 1499.99).1 (by norm_num)
  · exact (key 1500.00).2.1 (by norm_num)
  · exact (key 2499.99).2.1 (by norm_num)
  · exact (key 2500.00).2.2.1 (by norm_num)

/-- C6: for every location, day, hour and every jitter draw `u` in
`[0, 1)`, the returned (rounded) generator value is nonnegative and lies
within the deterministic envelope `[0.9*raw, 1.1*raw]` around the
non-jittered product `raw`. -/
theorem generator_envelope (place day : String) (hour : ℤ) (u : ℚ)
    (hu0 : 0 ≤ u) (hu1 : u < 1) :
    0 ≤ predict_traffic_value place day hour u ∧
    0.9 * rawValue place day hour ≤ predict_traffic_value place day hour u ∧
    predict_traffic_value place day hour u ≤ 1.1 * rawValue place day hour := by
  have hpos : 0 < rawValue place day hour := rawValue_pos place day hour
  have hint := rawValue_ten_int place day hour
  unfold predict_traffic_value
  set raw := rawValue place day hour with hraw
  set k : ℤ := ⌊raw * 10⌋ with hk
  have hlow : ((9 * k : ℤ) : ℚ) ≤ raw * (0.9 + u * 0.2) * 100 := by
    have hs : (9 : ℚ) * (raw * 10) ≤ raw * (0.9 + u * 0.2) * 100 := by
      nlinarith [mul_nonneg hpos.le hu0]
    calc ((9 * k : ℤ) : ℚ) = 9 * ((k : ℤ) : ℚ) := by push_cast; ring
      _ = 9 * (raw * 10) := by rw [hint]
      _ ≤ raw * (0.9 + u * 0.2) * 100 := hs
  have hup : raw * (0.9 + u * 0.2) * 100 ≤ ((11 * k : ℤ) : ℚ) := by
    have hs : raw * (0.9 + u * 0.2) * 100 ≤ (11 : ℚ) * (raw * 10) := by
      nlinarith [mul_nonneg hpos.le (by linarith : (0 : ℚ) ≤ 1 - u)]
    calc raw * (0.9 + u * 0.2) * 100 ≤ (11 : ℚ) * (raw * 10) := hs
      _ = 11 * ((k : ℤ) : ℚ) := by rw [hint]
      _ = ((11 * k : ℤ) : ℚ) := by push_cast; ring
  have h1 := round2_ge hlow
  have h2 := round2_le hup
  have e1 : ((9 * k : ℤ) : ℚ) / 100 = 0.9 * raw := by
    push_cast
    rw [hint]
    ring
  have e2 : ((11 * k : ℤ) : ℚ) / 100 = 1.1 * raw := by
    push_cast
    rw [hint]
    ring
  rw [e1] at h1
  rw [e2] at h2
  exact ⟨by linarith, h1, h2⟩

/-- C6 witness: the envelope holds at the concrete input
(silk_board, Monday, hour 8, draw 1/2). -/
theorem generator_envelope_witness :
    (0 ≤ (1/2 : ℚ) ∧ (1/2 : ℚ) < 1) ∧
    (0 ≤ predict_traffic_value "silk_board" "Monday" 8 (1/2) ∧
     0.9 * rawValue "silk_board" "Monday" 8
       ≤ predict_traffic_value "silk_board" "Monday" 8 (1/2) ∧
     predict_traffic_value "silk_board" "Monday" 8 (1/2)
       ≤ 1.1 * rawValue "silk_board" "Monday" 8) :=
  ⟨⟨by norm_num, by norm_num⟩,
    generator_envelope "silk_board" "Monday" 8 (1/2) (by norm_num) (by norm_num)⟩

/-- C7: at any location and hour, the pre-jitter intensity on Saturday or
Sunday is strictly below the pre-jitter intensity on any non-weekend day:
the 0.6 weekend multiplier strictly reduces the product against every
combination on a weekday of weekend multiplier 1.0 and day multiplier at least 1.0. -/
theorem weekend_raw_below_weekday_raw (place : String) (hour : ℤ)
    (dayE dayW : String) (hE : dayE = "Saturday" ∨ dayE = "Sunday")
    (_hW : dayW ∈ DAYS_OF_WEEK) (hW1 : dayW ≠ "Saturday") (hW2 : dayW ≠ "Sunday") :
    rawValue place dayE hour < rawValue place dayW hour := by
  have hbase := base_traffic_pos place
  have hhm := hour_multiplier_pos hour
  have hwe : weekend_factor dayE = 0.6 := by
    unfold weekend_factor
    rw [if_pos hE]
  have hde : day_factor dayE = 1.0 := by
    rcases hE with h | h <;> subst h <;> rfl
  have hwW : weekend_factor dayW = 1.0 := by
    unfold weekend_factor
    rw [if_neg]
    push_neg
    exact ⟨hW1, hW2⟩
  have hdW : 1 ≤ day_factor dayW := day_factor_ge_one dayW
  unfold rawValue
  rw [hwe, hde, hwW]
  have hA : 0 < base_traffic place * hour_multiplier hour := mul_pos hbase hhm
  nlinarith [mul_le_mul_of_nonneg_left hdW (le_of_lt hA)]

/-- C7 witness: the Saturday pre-jitter intensity at silk_board, hour 8 is
below the Tuesday one. -/
theorem weekend_raw_below_weekday_raw_witness :
    ("Saturday" = "Saturday" ∨ "Saturday" = "Sunday") ∧
    "Tuesday" ∈ DAYS_OF_WEEK ∧ "Tuesday" ≠ "Saturday" ∧ "Tuesday" ≠ "Sunday" ∧
    rawValue "silk_board" "Saturday" 8 < rawValue "silk_board" "Tuesday" 8 :=
  ⟨Or.inl rfl, by decide, by decide, by decide,
    weekend_raw_below_weekday_raw "silk_board" 8 "Saturday" "Tuesday"
      (Or.inl rfl) (by decide) (by decide) (by decide)⟩


/-- C3: for every validated request (known place, known day,
`0 ≤ start ≤ end ≤ 23`) the handler succeeds and the report satisfies:
the predictions list has `end - start + 1` entries whose hours run
`start, start+1, ...` (strictly increasing up to `end`); the peak fields
come from a maximal-intensity prediction, first occurrence winning on
ties, so the peak hour lies in `[start, end]`; and the average equals the
mean of the intensities rounded to 2 decimals. -/
theorem range_report_invariants (req : TrafficPredictionRequest) (us : ℕ → ℚ)
    (uuid ts : String) (store : List AuditDoc)
    (hplace : (TRAFFIC_LOCATIONS.lookup (normalize_place req.place)).isSome = true)
    (hday : req.day ∈ DAYS_OF_WEEK)
    (_hs0 : 0 ≤ req.start_hour) (hse : req.start_hour ≤ req.end_hour)
    (_he23 : req.end_hour ≤ 23) :
    ∃ resp : TrafficPredictionResponse,
      (predict_traffic_range req us uuid ts store).1 = .ok resp ∧
      (resp.predictions.length : ℤ) = req.end_hour - req.start_hour + 1 ∧
      (∀ (i : ℕ) (q : HourlyPrediction), resp.predictions[i]? = some q →
        q.hour = req.start_hour + i) ∧
      (∃ (i : ℕ) (pk : HourlyPrediction), resp.predictions[i]? = some pk ∧
        resp.peak_hour = pk.hour ∧ resp.peak_traffic = pk.traffic_value ∧
        (∀ (j : ℕ) (q : HourlyPrediction), resp.predictions[j]? = some q →
          q.traffic_value ≤ pk.traffic_value) ∧
        (∀ (j : ℕ) (q : HourlyPrediction), j < i → resp.predictions[j]? = some q →
          q.traffic_value < pk.traffic_value)) ∧
      req.start_hour ≤ resp.peak_hour ∧ resp.peak_hour ≤ req.end_hour ∧
      resp.average_traffic =
        round2 (((resp.predictions.map fun q => q.traffic_value).sum) /
          (resp.predictions.length : ℚ)) := by
  obtain ⟨loc, hl⟩ := Option.isSome_iff_exists.mp hplace
  have hd : DAYS_OF_WEEK.contains req.day = true := List.elem_eq_true_of_mem hday
  have hr : ¬ req.end_hour < req.start_hour := by omega
  obtain ⟨p, ps, hm⟩ := List.exists_cons_of_ne_nil
    (mkPredictions_ne_nil (normalize_place req.place) req.day req.start_hour
      req.end_hour us hr)
  obtain ⟨i, hget, hmax, hpre⟩ := pyMaxAux_spec ps p
  have hpk : (mkPredictions (normalize_place req.place) req.day req.start_hour
      req.end_hour us)[i]? = some (pyMaxAux p ps) := by
    rw [hm]
    exact hget
  have hpkh := mkPredictions_hour (normalize_place req.place) req.day
    req.start_hour req.end_hour us i (pyMaxAux p ps) hpk
  refine ⟨successResponse (normalize_place req.place) req.day loc p ps,
    ?_, ?_, ?_, ?_, ?_, ?_, ?_⟩
  · rw [handler_ok_eq req us uuid ts store loc p ps hl hd hr hm]
  · show ((p :: ps).length : ℤ) = _
    rw [← hm, mkPredictions_length]
    omega
  · intro j q hq
    have hq2 : (mkPredictions (normalize_place req.place) req.day req.start_hour
        req.end_hour us)[j]? = some q := by
      rw [hm]
      exact hq
    exact (mkPredictions_hour (normalize_place req.place) req.day req.start_hour
      req.end_hour us j q hq2).1
  · exact ⟨i, pyMaxAux p ps, hget, rfl, rfl, hmax, hpre⟩
  · show req.start_hour ≤ (pyMaxAux p ps).hour
    omega
  · show (pyMaxAux p ps).hour ≤ req.end_hour
    omega
  · rfl

/-- C3 witness: the invariants hold for the concrete request
(silk_board, Monday, hours 8 to 11) with the all-zero jitter stream. -/
theorem range_report_invariants_witness :
    ∃ resp : TrafficPredictionResponse,
      (predict_traffic_range ⟨"silk_board", "Monday", 8, 11⟩ (fun _ => 0)
        "id0" "ts0" []).1 = .ok resp ∧
      (resp.predictions.length : ℤ) = 11 - 8 + 1 ∧
      (∀ (i : ℕ) (q : HourlyPrediction), resp.predictions[i]? = some q →
        q.hour = 8 + i) ∧
      (∃ (i : ℕ) (pk : HourlyPrediction), resp.predictions[i]? = some pk ∧
        resp.peak_hour = pk.hour ∧ resp.peak_traffic = pk.traffic_value ∧
        (∀ (j : ℕ) (q : HourlyPrediction), resp.predictions[j]? = some q →
          q.traffic_value ≤ pk.traffic_value) ∧
        (∀ (j : ℕ) (q : HourlyPrediction), j < i → resp.predictions[j]? = some q →
          q.traffic_value < pk.traffic_value)) ∧
      (8 : ℤ) ≤ resp.peak_hour ∧ resp.peak_hour ≤ 11 ∧
      resp.average_traffic =
        round2 (((resp.predictions.map fun q => q.traffic_value).sum) /
          (resp.predictions.length : ℚ)) :=
  range_report_invariants ⟨"silk_board", "Monday", 8, 11⟩ (fun _ => 0)
    "id0" "ts0" [] (by decide) (by decide) (by decide) (by decide) (by decide)


lemma lookup_locations_none_iff (pl : String) :
    TRAFFIC_LOCATIONS.lookup pl = none ↔ pl ∉ TRAFFIC_LOCATIONS.map Prod.fst := by
  unfold TRAFFIC_LOCATIONS
  by_cases h1 : pl = "silk_board" <;> by_cases h2 : pl = "kr_puram" <;>
    by_cases h3 : pl = "whitefield" <;> by_cases h4 : pl = "hebbal" <;>
    simp_all [List.lookup, beq_iff_eq, beq_eq_false_iff_ne]
  have b1 : (pl == "silk_board") = false := beq_eq_false_iff_ne.mpr h1
  have b2 : (pl == "kr_puram") = false := beq_eq_false_iff_ne.mpr h2
  have b3 : (pl == "whitefield") = false := beq_eq_false_iff_ne.mpr h3
  have b4 : (pl == "hebbal") = false := beq_eq_false_iff_ne.mpr h4
  rw [b1, b2, b3, b4]
  try simp [h1, h2, h3, h4]

set_option maxRecDepth 100000 in
/-- C4: the predict-traffic operation fails with a client error exactly
when the normalized place is unknown, the day is unknown, or
`end_hour < start_hour`; the specific error messages name the offending
field and (for place and day) list the valid values; and on every error
the audit store is left unchanged. -/
theorem validation_error_taxonomy (req : TrafficPredictionRequest) (us : ℕ → ℚ)
    (uuid ts : String) (store : List AuditDoc) :
    ((∃ msg, (predict_traffic_range req us uuid ts store).1 = .error msg) ↔
      (normalize_place req.place ∉ TRAFFIC_LOCATIONS.map Prod.fst ∨
       req.day ∉ DAYS_OF_WEEK ∨ req.end_hour < req.start_hour)) ∧
    ((∃ msg, (predict_traffic_range req us uuid ts store).1 = .error msg) →
      (predict_traffic_range req us uuid ts store).2 = store) ∧
    (normalize_place req.place ∉ TRAFFIC_LOCATIONS.map Prod.fst →
      (predict_traffic_range req us uuid ts store).1 = .error invalidLocationDetail) ∧
    (normalize_place req.place ∈ TRAFFIC_LOCATIONS.map Prod.fst →
      req.day ∉ DAYS_OF_WEEK →
      (predict_traffic_range req us uuid ts store).1 = .error invalidDayDetail) ∧
    (normalize_place req.place ∈ TRAFFIC_LOCATIONS.map Prod.fst →
      req.day ∈ DAYS_OF_WEEK → req.end_hour < req.start_hour →
      (predict_traffic_range req us uuid ts store).1 = .error invalidRangeDetail) ∧
    ("location".data <:+: invalidLocationDetail.data ∧
     "silk_board".data <:+: invalidLocationDetail.data ∧
     "kr_puram".data <:+: invalidLocationDetail.data ∧
     "whitefield".data <:+: invalidLocationDetail.data ∧
     "hebbal".data <:+: invalidLocationDetail.data) ∧
    ("day".data <:+: invalidDayDetail.data ∧
     "Monday".data <:+: invalidDayDetail.data ∧
     "Tuesday".data <:+: invalidDayDetail.data ∧
     "Wednesday".data <:+: invalidDayDetail.data ∧
     "Thursday".data <:+: invalidDayDetail.data ∧
     "Friday".data <:+: invalidDayDetail.data ∧
     "Saturday".data <:+: invalidDayDetail.data ∧
     "Sunday".data <:+: invalidDayDetail.data) ∧
    ("hour".data <:+: invalidRangeDetail.data) := by
  have hmemd : DAYS_OF_WEEK.contains req.day = true ↔ req.day ∈ DAYS_OF_WEEK := by
    simp
  have hmeml := lookup_locations_none_iff (normalize_place req.place)
  refine ⟨⟨?_, ?_⟩, ?_, ?_, ?_, ?_, by decide, by decide, by decide⟩
  · rintro ⟨msg, hmsg⟩
    cases hl : TRAFFIC_LOCATIONS.lookup (normalize_place req.place) with
    | none => exact Or.inl (hmeml.mp hl)
    | some loc =>
      cases hd : DAYS_OF_WEEK.contains req.day with
      | false =>
        refine Or.inr (Or.inl ?_)
        intro hmem
        rw [hmemd.mpr hmem] at hd
        cases hd
      | true =>
        by_cases hr : req.end_hour < req.start_hour
        · exact Or.inr (Or.inr hr)
        · exfalso
          obtain ⟨p, ps, hm⟩ := List.exists_cons_of_ne_nil
            (mkPredictions_ne_nil (normalize_place req.place) req.day
              req.start_hour req.end_hour us hr)
          rw [handler_ok_eq req us uuid ts store loc p ps hl hd hr hm] at hmsg
          exact absurd hmsg (by simp)
  · intro hdisj
    cases hl : TRAFFIC_LOCATIONS.lookup (normalize_place req.place) with
    | none =>
      exact ⟨invalidLocationDetail, by rw [handler_err_loc req us uuid ts store hl]⟩
    | some loc =>
      cases hd : DAYS_OF_WEEK.contains req.day with
      | false =>
        exact ⟨invalidDayDetail,
          by rw [handler_err_day req us uuid ts store loc hl hd]⟩
      | true =>
        have hr : req.end_hour < req.start_hour := by
          rcases hdisj with hp | hdy | hr
          · rw [hmeml.mpr hp] at hl
            cases hl
          · exact absurd (hmemd.mp hd) hdy
          · exact hr
        exact ⟨invalidRangeDetail,
          by rw [handler_err_range req us uuid ts store loc hl hd hr]⟩
  · rintro ⟨msg, hmsg⟩
    cases hl : TRAFFIC_LOCATIONS.lookup (normalize_place req.place) with
    | none => rw [handler_err_loc req us uuid ts store hl]
    | some loc =>
      cases hd : DAYS_OF_WEEK.contains req.day with
      | false => rw [handler_err_day req us uuid ts store loc hl hd]
      | true =>
        by_cases hr : req.end_hour < req.start_hour
        · rw [handler_err_range req us uuid ts store loc hl hd hr]
        · exfalso
          obtain ⟨p, ps, hm⟩ := List.exists_cons_of_ne_nil
            (mkPredictions_ne_nil (normalize_place req.place) req.day
              req.start_hour req.end_hour us hr)
          rw [handler_ok_eq req us uuid ts store loc p ps hl hd hr hm] at hmsg
          exact absurd hmsg (by simp)
  · intro hp
    rw [handler_err_loc req us uuid ts store (hmeml.mpr hp)]
  · intro hp hdy
    cases hl : TRAFFIC_LOCATIONS.lookup (normalize_place req.place) with
    | none => exact absurd (hmeml.mp hl) (by simp [hp])
    | some loc =>
      cases hd : DAYS_OF_WEEK.contains req.day with
      | true => exact absurd (hmemd.mp hd) hdy
      | false => rw [handler_err_day req us uuid ts store loc hl hd]
  · intro hp hdy hr
    cases hl : TRAFFIC_LOCATIONS.lookup (normalize_place req.place) with
    | none => exact absurd (hmeml.mp hl) (by simp [hp])
    | some loc =>
      rw [handler_err_range req us uuid ts store loc hl (hmemd.mpr hdy) hr]

/-- C4 witness: a request with an unknown place yields the
invalid-location client error and leaves the audit store unchanged. -/
theorem validation_error_taxonomy_witness :
    ((∃ msg, (predict_traffic_range ⟨"invalid_location", "Monday", 8, 11⟩
        (fun _ => 0) "id0" "ts0" []).1 = .error msg) ↔
      (normalize_place "invalid_location" ∉ TRAFFIC_LOCATIONS.map Prod.fst ∨
       "Monday" ∉ DAYS_OF_WEEK ∨ (11 : ℤ) < 8)) ∧
    ((∃ msg, (predict_traffic_range ⟨"invalid_location", "Monday", 8, 11⟩
        (fun _ => 0) "id0" "ts0" []).1 = .error msg) →
      (predict_traffic_range ⟨"invalid_location", "Monday", 8, 11⟩
        (fun _ => 0) "id0" "ts0" []).2 = []) ∧
    (normalize_place "invalid_location" ∉ TRAFFIC_LOCATIONS.map Prod.fst →
      (predict_traffic_range ⟨"invalid_location", "Monday", 8, 11⟩
        (fun _ => 0) "id0" "ts0" []).1 = .error invalidLocationDetail) ∧
    (normalize_place "invalid_location" ∈ TRAFFIC_LOCATIONS.map Prod.fst →
      "Monday" ∉ DAYS_OF_WEEK →
      (predict_traffic_range ⟨"invalid_location", "Monday", 8, 11⟩
        (fun _ => 0) "id0" "ts0" []).1 = .error invalidDayDetail) ∧
    (normalize_place "invalid_location" ∈ TRAFFIC_LOCATIONS.map Prod.fst →
      "Monday" ∈ DAYS_OF_WEEK → (11 : ℤ) < 8 →
      (predict_traffic_range ⟨"invalid_location", "Monday", 8, 11⟩
        (fun _ => 0) "id0" "ts0" []).1 = .error invalidRangeDetail) ∧
    ("location".data <:+: invalidLocationDetail.data ∧
     "silk_board".data <:+: invalidLocationDetail.data ∧
     "kr_puram".data <:+: invalidLocationDetail.data ∧
     "whitefield".data <:+: invalidLocationDetail.data ∧
     "hebbal".data <:+: invalidLocationDetail.data) ∧
    ("day".data <:+: invalidDayDetail.data ∧
     "Monday".data <:+: invalidDayDetail.data ∧
     "Tuesday".data <:+: invalidDayDetail.data ∧
     "Wednesday".data <:+: invalidDayDetail.data ∧
     "Thursday".data <:+: invalidDayDetail.data ∧
     "Friday".data <:+: invalidDayDetail.data ∧
     "Saturday".data <:+: invalidDayDetail.data ∧
     "Sunday".data <:+: invalidDayDetail.data) ∧
    ("hour".data <:+: invalidRangeDetail.data) :=
  validation_error_taxonomy ⟨"invalid_location", "Monday", 8, 11⟩
    (fun _ => 0) "id0" "ts0" []


/-- C5: the insight string is a pure function of the peak estimate alone,
selected by its severity tier: tier 3 names the peak hour and suggests
alternate routes or a 1-2 hour delay; tier 2 names the peak hour and
suggests buffer time; tier 1 is a fixed favorable-conditions message with
no hour reference (no digit at all). -/
theorem insight_pure_function_of_peak :
    (∀ (req : TrafficPredictionRequest) (us : ℕ → ℚ) (uuid ts : String)
        (store : List AuditDoc) (resp : TrafficPredictionResponse),
      (predict_traffic_range req us uuid ts store).1 = .ok resp →
      ∃ (p : HourlyPrediction) (ps : List HourlyPrediction),
        resp.predictions = p :: ps ∧
        resp.insight = buildInsight (pyMaxAux p ps) ∧
        resp.peak_hour = (pyMaxAux p ps).hour) ∧
    (∀ pk : HourlyPrediction, pk.severity = 3 →
      buildInsight pk = "Peak congestion expected at " ++ toString pk.hour ++
        ":00. Consider alternative routes or delay travel by 1-2 hours.") ∧
    (∀ pk : HourlyPrediction, pk.severity = 2 →
      buildInsight pk = "Moderate traffic expected. " ++ toString pk.hour ++
        ":00 shows highest activity. Plan buffer time.") ∧
    (∀ pk : HourlyPrediction, pk.severity ≠ 3 → pk.severity ≠ 2 →
      buildInsight pk =
        "Traffic conditions are favorable. Smooth commute expected throughout the selected time range.") ∧
    (("Traffic conditions are favorable. Smooth commute expected throughout the selected time range.".data.all
        fun c => ! c.isDigit) = true) := by
  refine ⟨?_, ?_, ?_, ?_, by decide⟩
  · intro req us uuid ts store resp h
    obtain ⟨loc, p, ps, hl, hd, hr, hm, hresp, hstore⟩ :=
      handler_ok_cases req us uuid ts store resp h
    refine ⟨p, ps, ?_, ?_, ?_⟩ <;> rw [hresp] <;> rfl
  · intro pk h3
    unfold buildInsight
    rw [if_pos h3]
  · intro pk h2
    unfold buildInsight
    rw [if_neg (by omega), if_pos h2]
  · intro pk h3 h2
    unfold buildInsight
    rw [if_neg h3, if_neg h2]

/-- C8 counterexample: the `GET /days` payload is not a bare list of the
seven weekday names; it is an object. -/
theorem days_payload_not_bare_list :
    get_days ≠ ApiValue.arr
      [ApiValue.str "Monday", ApiValue.str "Tuesday", ApiValue.str "Wednesday",
       ApiValue.str "Thursday", ApiValue.str "Friday", ApiValue.str "Saturday",
       ApiValue.str "Sunday"] := by
  intro h
  exact ApiValue.noConfusion h

/-- C8 (amended): the `GET /days` payload is an object with the single
key `days` whose value is the list of the seven weekday names in fixed
Monday-first order. -/
theorem days_payload_shape :
    get_days = ApiValue.obj [("days", ApiValue.arr
      [ApiValue.str "Monday", ApiValue.str "Tuesday", ApiValue.str "Wednesday",
       ApiValue.str "Thursday", ApiValue.str "Friday", ApiValue.str "Saturday",
       ApiValue.str "Sunday"])] ∧
    DAYS_OF_WEEK = ["Monday", "Tuesday", "Wednesday", "Thursday", "Friday",
      "Saturday", "Sunday"] ∧
    DAYS_OF_WEEK.length = 7 :=
  ⟨rfl, rfl, rfl⟩

/-- C9: the handler normalizes the place by lowercasing and replacing
spaces with underscores before validation; the whole outcome depends on
the place only through its normalized form; the response echoes the
normalized identifier; and in particular "Silk Board" is accepted as
silk_board. -/
theorem place_normalization :
    normalize_place "Silk Board" = "silk_board" ∧
    (∀ (p1 p2 day : String) (s e : ℤ) (us : ℕ → ℚ) (uuid ts : String)
        (store : List AuditDoc), normalize_place p1 = normalize_place p2 →
      predict_traffic_range ⟨p1, day, s, e⟩ us uuid ts store =
        predict_traffic_range ⟨p2, day, s, e⟩ us uuid ts store) ∧
    (∀ (req : TrafficPredictionRequest) (us : ℕ → ℚ) (uuid ts : String)
        (store : List AuditDoc) (resp : TrafficPredictionResponse),
      (predict_traffic_range req us uuid ts store).1 = .ok resp →
      resp.place = normalize_place req.place) ∧
    (∃ resp : TrafficPredictionResponse,
      (predict_traffic_range ⟨"Silk Board", "Monday", 8, 8⟩ (fun _ => 0)
        "id0" "ts0" []).1 = .ok resp ∧ resp.place = "silk_board") := by
  refine ⟨by decide, ?_, ?_, ?_⟩
  · intro p1 p2 day s e us uuid ts store h
    simp only [predict_traffic_range]
    rw [h]
  · intro req us uuid ts store resp h
    obtain ⟨loc, p, ps, hl, hd, hr, hm, hresp, hstore⟩ :=
      handler_ok_cases req us uuid ts store resp h
    rw [hresp]
    rfl
  · have hl : TRAFFIC_LOCATIONS.lookup (normalize_place "Silk Board") =
        some ⟨"Silk Board", 12.9177, 77.6233⟩ := rfl
    have hd : DAYS_OF_WEEK.contains "Monday" = true := rfl
    have hr : ¬ (8 : ℤ) < 8 := by omega
    obtain ⟨p, ps, hm⟩ := List.exists_cons_of_ne_nil
      (mkPredictions_ne_nil (normalize_place "Silk Board") "Monday" 8 8
        (fun _ => 0) hr)
    refine ⟨successResponse (normalize_place "Silk Board") "Monday"
      ⟨"Silk Board", 12.9177, 77.6233⟩ p ps, ?_, ?_⟩
    · rw [handler_ok_eq ⟨"Silk Board", "Monday", 8, 8⟩ (fun _ => 0) "id0" "ts0"
        [] ⟨"Silk Board", 12.9177, 77.6233⟩ p ps hl hd hr hm]
    · show normalize_place "Silk Board" = "silk_board"
      decide

/-- C10: the request model enforces both hours in [0, 23] at
deserialization, so the handler body (and hence the Signal Generator) is
only ever reached with hours in [0, 23]: every prediction of a successful
run of a parsed request has its hour in [0, 23]. -/
theorem request_hour_bounds :
    (∀ (place day : String) (s e : ℤ),
      (parseRequest place day s e).isSome = true ↔
        (0 ≤ s ∧ s ≤ 23 ∧ 0 ≤ e ∧ e ≤ 23)) ∧
    (∀ (place day : String) (s e : ℤ) (req : TrafficPredictionRequest),
      parseRequest place day s e = some req →
      req.place = place ∧ req.day = day ∧ req.start_hour = s ∧ req.end_hour = e) ∧
    (∀ (place day : String) (s e : ℤ) (req : TrafficPredictionRequest),
      parseRequest place day s e = some req →
      ∀ (us : ℕ → ℚ) (uuid ts : String) (store : List AuditDoc)
        (resp : TrafficPredictionResponse),
        (predict_traffic_range req us uuid ts store).1 = .ok resp →
        ∀ (i : ℕ) (q : HourlyPrediction), resp.predictions[i]? = some q →
          0 ≤ q.hour ∧ q.hour ≤ 23) := by
  refine ⟨?_, ?_, ?_⟩
  · intro place day s e
    unfold parseRequest
    split_ifs with h
    · simp [h]
    · simp [h]
  · intro place day s e req h
    unfold parseRequest at h
    split_ifs at h with hcond
    cases Option.some.inj h
    exact ⟨rfl, rfl, rfl, rfl⟩
  · intro place day s e req hp us uuid ts store resp hok i q hq
    have hb : 0 ≤ s ∧ s ≤ 23 ∧ 0 ≤ e ∧ e ≤ 23 ∧ req.start_hour = s ∧
        req.end_hour = e := by
      unfold parseRequest at hp
      split_ifs at hp with hcond
      cases Option.some.inj hp
      exact ⟨hcond.1, hcond.2.1, hcond.2.2.1, hcond.2.2.2, rfl, rfl⟩
    obtain ⟨loc, p, ps, hl, hd, hr, hm, hresp, hstore⟩ :=
      handler_ok_cases req us uuid ts store resp hok
    have hq2 : (mkPredictions (normalize_place req.place) req.day req.start_hour
        req.end_hour us)[i]? = some q := by
      rw [hm]
      rw [hresp] at hq
      exact hq
    have hh := mkPredictions_hour (normalize_place req.place) req.day
      req.start_hour req.end_hour us i q hq2
    omega

end TrafficSentinel



